import Mathlib

/-!
Verification development for the pymud3 MUD server (`mud-multi.py`,
`integrated_web.py`).  The Python server's data model and the operations
relevant to the spatial invariant, login registry, combat resolution,
persistence round-trip, dialogue fallback and spell-mana accounting are
shallowly embedded as executable Lean definitions; machine-level Python
numbers are modelled as `Int`, Python lists and dicts as Lean lists
(insertion-ordered, like CPython dicts), and randomness as an explicit
stream of draws threaded through state.
-/

namespace Mud

/-! ## Basic Python helpers -/

/-- Python substring test on char lists: `needle in hay`. -/
def subChars : List Char → List Char → Bool
  | n, [] => n.isEmpty
  | n, c :: t => n.isPrefixOf (c :: t) || subChars n t

/-- Python `needle in hay` for strings (substring containment). -/
def strIn (needle hay : String) : Bool :=
  subChars needle.toList hay.toList

/-- Python `str.lower()` (ASCII case folding, character by character;
written structurally so that concrete states evaluate by `decide`). -/
def pyLower (s : String) : String := String.mk (s.data.map Char.toLower)

/-- Lexicographic (code-point) order on char lists, as Python compares
strings. -/
def charListLe : List Char → List Char → Bool
  | [], _ => true
  | _ :: _, [] => false
  | a :: as, b :: bs =>
    if a.toNat < b.toNat then true
    else if b.toNat < a.toNat then false
    else charListLe as bs

/-- Python `a <= b` on strings. -/
def strLe (a b : String) : Bool := charListLe a.data b.data

/-- Python `str.isdigit()` restricted to ASCII digits (the room-number case). -/
def pyIsDigit (s : String) : Bool :=
  !s.isEmpty && s.toList.all Char.isDigit

/-- Python `int(s)` on a digit string. -/
def pyToInt (s : String) : Int :=
  (s.data.foldl (fun a c => a * 10 + (c.toNat - 48)) 0 : Nat)

/-- Model of `random.randint(lo, hi)`: consume one draw `d` from the stream
and return `lo + d % (hi - lo + 1)`, a value in `[lo, hi]` whenever
`lo ≤ hi`, together with the rest of the stream. -/
def randint (lo hi : Int) (rng : List Nat) : Int × List Nat :=
  match rng with
  | [] => (lo, [])
  | d :: rest => (lo + (d : Int) % (hi - lo + 1), rest)

/-- Model of `random.choice(xs)`: consume one draw to select an element.
Only used for flavour-message selection, which does not touch game state. -/
def pyChoice (xs : List String) (rng : List Nat) : String × List Nat :=
  match rng with
  | [] => (xs.headD "", [])
  | d :: rest => (xs.getD (d % xs.length) "", rest)

/-- Ordered-dict update: assign `d[k] = v` (update in place if the key
exists, else append, as CPython dicts do). -/
def dictSet {α : Type} (d : List (String × α)) (k : String) (v : α) :
    List (String × α) :=
  if d.any (·.1 == k) then d.map (fun kv => if kv.1 == k then (k, v) else kv)
  else d ++ [(k, v)]

/-! ## Session registry (`player_login` in mud-multi.py and
`handle_login` in integrated_web.py) -/

/-- Result of one login attempt. `nameTaken` corresponds to the
"That name is already in use." / "Name already in use" responses. -/
inductive LoginResult where
  | ok
  | nameTaken
deriving DecidableEq, Repr

/-- The critical section both login paths run under `players_lock`
(mud-multi.py `player_login`, integrated_web.py `handle_login`): lowercase
every registered name, reject if the requested name matches one
case-insensitively, otherwise construct the player and insert the exact
name into the registry.  The registry is modelled by its ordered key
list. -/
def loginAttempt (reg : List String) (name : String) :
    LoginResult × List String :=
  if (reg.map pyLower).contains (pyLower name) then
    (LoginResult.nameTaken, reg)
  else
    (LoginResult.ok, reg ++ [name])

/-- The registry never holds two names equal up to case. -/
def NoCaseDup (reg : List String) : Prop :=
  (reg.map pyLower).Nodup

instance (reg : List String) : Decidable (NoCaseDup reg) := by
  unfold NoCaseDup; infer_instance

/-! ## World data model

Python objects are mutable and aliased; the embedding gives every `Mobile`
instance a heap id and keys every `Player` by its (unique) name, so a
room's `mobs`/`players` lists hold ids/names and attribute mutation is an
update of the corresponding record. A player's `current_room` reference is
modelled as the room's vnum looked up in the global `rooms` table. -/

/-- One value of a room's `exits` dict (a door/link descriptor). -/
structure ExitData where
  to_room_vnum : Int
  door_flags : Int
  is_open : Bool
  is_locked : Bool
deriving DecidableEq, Repr

/-- A carried/equipped `Object` (the seven fields that `to_dict` /
`from_dict` persist). `effects` is the stat-effect dict. -/
structure ObjRec where
  vnum : Int
  keywords : List String
  short_desc : String
  long_desc : String
  description : String
  item_type : String
  effects : List (String × Int)
deriving DecidableEq, Repr

/-- A `Spell` record (the fields read by `cast_spell` / `Spell.cast`). -/
structure SpellRec where
  name : String
  mana_cost : Int
  spell_type : String
  requires_target : Bool
  damage_multiplier : Int
  base_damage_lo : Int
  base_damage_hi : Int
  heal_multiplier : Int
  base_heal_lo : Int
  base_heal_hi : Int
deriving DecidableEq, Repr

/-- A `Mobile` instance (combat-relevant attributes). `current_room_vnum`
is `None` until world loading places the mob. -/
structure Mob where
  vnum : Int
  keywords : List String
  short_desc : String
  level : Int
  attack_power : Int
  defense : Int
  hp : Int
  max_hp : Int
  is_npc : Bool
  current_room_vnum : Option Int
deriving DecidableEq, Repr

/-- A `Player` instance. `companion_room`/`pet_room` model
`companion.current_room` / `current_pet.current_room` when a companion or
active pet exists; `achievements` holds `(name, description, is_unlocked)`
triples; `pets` holds `(name, level, hp, max_hp)`. -/
structure PlayerRec where
  name : String
  strength : Int
  agility : Int
  intelligence : Int
  vitality : Int
  skill_points : Int
  max_hp : Int
  hp : Int
  max_mana : Int
  mana : Int
  attack_power : Int
  defense : Int
  level : Int
  experience : Int
  inventory : List ObjRec
  equipment : List (String × Option ObjRec)
  resting : Bool
  status_effects : List String
  spellbook : List (String × SpellRec)
  reputation : Int
  karma : Int
  achievements : List (String × String × Bool)
  pets : List (String × Int × Int × Int)
  current_pet : Option String
  companion_room : Option Int
  pet_room : Option Int
  rooms_visited : List Int
  current_room_vnum : Int
deriving DecidableEq, Repr

/-- A `Room`: static identity plus the mutable `exits` door state and the
`players` / `mobs` occupancy lists. -/
structure Room where
  vnum : Int
  name : String
  exits : List (Int × ExitData)
  players : List String
  mobs : List Nat
deriving DecidableEq, Repr

/-- The process-wide state: `rooms` dict (insertion order), the `Mobile`
heap, the `players` registry, the `combatants` pair registry, the
`active_events` map (room vnum ↦ event type; the only payload field the
combat path reads is the fixed invasion `reward_multiplier` of 1.5), the
global `achievements` table (name ↦ (description, is_unlocked)) and the
random stream. -/
structure World where
  rooms : List Room
  mobs : List (Nat × Mob)
  players : List PlayerRec
  combatants : List (String × String)
  active_events : List (Int × String)
  achievements : List (String × String × Bool)
  rng : List Nat
deriving DecidableEq, Repr

def World.getRoom (w : World) (v : Int) : Option Room :=
  w.rooms.find? (·.vnum == v)

/-- Python `v in rooms`. -/
def World.hasRoom (w : World) (v : Int) : Bool :=
  w.rooms.any (·.vnum == v)

def World.setRoom (w : World) (r : Room) : World :=
  { w with rooms := w.rooms.map (fun r0 => if r0.vnum == r.vnum then r else r0) }

def World.getPlayer (w : World) (n : String) : Option PlayerRec :=
  w.players.find? (·.name == n)

def World.setPlayer (w : World) (p : PlayerRec) : World :=
  { w with players := w.players.map (fun q => if q.name == p.name then p else q) }

def World.getMob (w : World) (i : Nat) : Option Mob :=
  (w.mobs.find? (·.1 == i)).map (·.2)

def World.setMob (w : World) (i : Nat) (m : Mob) : World :=
  { w with mobs := w.mobs.map (fun im => if im.1 == i then (i, m) else im) }

/-- Reference to a live entity, resolved by name lookup: a `Player` (keyed
by name) or a `Mobile` (heap id). -/
inductive EntRef where
  | player (name : String)
  | mob (id : Nat)
deriving DecidableEq, Repr

/-- `getattr(entity, 'level', 1)`. -/
def World.entLevel (w : World) (e : EntRef) : Int :=
  match e with
  | .player n => ((w.getPlayer n).map PlayerRec.level).getD 1
  | .mob i => ((w.getMob i).map Mob.level).getD 1

def World.entAttackPower (w : World) (e : EntRef) : Int :=
  match e with
  | .player n => ((w.getPlayer n).map PlayerRec.attack_power).getD 0
  | .mob i => ((w.getMob i).map Mob.attack_power).getD 0

def World.entDefense (w : World) (e : EntRef) : Int :=
  match e with
  | .player n => ((w.getPlayer n).map PlayerRec.defense).getD 0
  | .mob i => ((w.getMob i).map Mob.defense).getD 0

def World.entHp (w : World) (e : EntRef) : Int :=
  match e with
  | .player n => ((w.getPlayer n).map PlayerRec.hp).getD 0
  | .mob i => ((w.getMob i).map Mob.hp).getD 0

/-- `entity.hp = v`. -/
def World.entSetHp (w : World) (e : EntRef) (v : Int) : World :=
  match e with
  | .player n =>
    match w.getPlayer n with
    | some p => w.setPlayer { p with hp := v }
    | none => w
  | .mob i =>
    match w.getMob i with
    | some m => w.setMob i { m with hp := v }
    | none => w

/-- `get_target_name`: players (which have a `name` attribute and no
`is_npc`) report their name, mobiles their `short_desc`. -/
def World.targetName (w : World) (e : EntRef) : String :=
  match e with
  | .player n => n
  | .mob i => ((w.getMob i).map Mob.short_desc).getD ""

/-- The mana attribute of the named player, when registered. -/
def manaOf (w : World) (n : String) : Option Int :=
  (w.getPlayer n).map PlayerRec.mana

/-! ## Movement (`Player.move`, `Player.teleport` in mud-multi.py) -/

/-- `reverse_direction_map.get(direction)`: direction word ↦ exit number. -/
def reverseDirection (d : String) : Option Int :=
  if d == "north" then some 0
  else if d == "east" then some 1
  else if d == "south" then some 2
  else if d == "west" then some 3
  else if d == "up" then some 4
  else if d == "down" then some 5
  else none

/-- `rooms_visited.add(vnum)` (set insertion). -/
def setAdd (xs : List Int) (v : Int) : List Int :=
  if xs.contains v then xs else xs ++ [v]

/-- `Player.move(direction)`.  Returns the new world and the lines sent to
the moving player (colour codes and the room description elided).  Source
order: resting check; direction lookup; closed/locked door checks (each an
early return with a message and no mutation); destination existence; then
remove from the old room's `players`, retarget `current_room`, append to
the new room's `players`, drag companion and active pet along, record the
room as visited. -/
def playerMove (w : World) (pname direction : String) : World × List String :=
  match w.getPlayer pname with
  | none => (w, [])
  | some p =>
    if p.resting then (w, ["You need to stand up before you can move."])
    else
      match reverseDirection direction with
      | none => (w, ["You can't go that way."])
      | some dirNum =>
        match w.getRoom p.current_room_vnum with
        | none => (w, [])
        | some room =>
          match room.exits.find? (·.1 == dirNum) with
          | none => (w, ["You can't go that way."])
          | some (_, ex) =>
            if (ex.door_flags == 1 || ex.door_flags == 3) && !ex.is_open then
              (w, ["The door is closed."])
            else if (ex.door_flags == 1 || ex.door_flags == 3) && ex.is_locked then
              (w, ["The door is locked."])
            else if w.hasRoom ex.to_room_vnum then
              let w1 := w.setRoom { room with players := room.players.erase pname }
              let p1 : PlayerRec :=
                { p with current_room_vnum := ex.to_room_vnum,
                         companion_room := p.companion_room.map (fun _ => ex.to_room_vnum),
                         pet_room := p.pet_room.map (fun _ => ex.to_room_vnum),
                         rooms_visited := setAdd p.rooms_visited ex.to_room_vnum }
              let w2 := w1.setPlayer p1
              let w3 :=
                match w2.getRoom ex.to_room_vnum with
                | some nr => w2.setRoom { nr with players := nr.players ++ [pname] }
                | none => w2
              (w3, ["You move " ++ direction ++ "."])
            else (w, ["You can't go that way."])

/-- `Player.teleport(room_identifier)`.  The numeric branch and the
name-substring branch both retarget `current_room` (and companion/pet and
`rooms_visited`) but, unlike `move`, touch neither room's `players`
list. -/
def playerTeleport (w : World) (pname ident : String) : World × List String :=
  match w.getPlayer pname with
  | none => (w, [])
  | some p =>
    if p.resting then (w, ["You need to stand up before you can teleport."])
    else if pyIsDigit ident then
      let v := pyToInt ident
      if w.hasRoom v then
        let p1 : PlayerRec :=
          { p with current_room_vnum := v,
                   companion_room := p.companion_room.map (fun _ => v),
                   pet_room := p.pet_room.map (fun _ => v),
                   rooms_visited := setAdd p.rooms_visited v }
        (w.setPlayer p1, ["You teleport."])
      else (w, ["No room with that number exists."])
    else
      match w.rooms.find? (fun r => strIn (pyLower ident) (pyLower r.name)) with
      | some r =>
        let p1 : PlayerRec :=
          { p with current_room_vnum := r.vnum,
                   companion_room := p.companion_room.map (fun _ => r.vnum),
                   pet_room := p.pet_room.map (fun _ => r.vnum),
                   rooms_visited := setAdd p.rooms_visited r.vnum }
        (w.setPlayer p1, ["You teleport."])
      | none => (w, ["No room with that name exists."])

/-- The spatial invariant of the spec: every player is listed exactly in
the occupant list of the room its `current_room` reference names. -/
def roomPlayerInv (w : World) : Bool :=
  w.players.all fun p => w.rooms.all fun r =>
    (r.players.contains p.name) == (r.vnum == p.current_room_vnum)

/-! ## Combat registry and identity resolution -/

/-- `tuple(sorted([a, b]))`. -/
def sortedPair (a b : String) : String × String :=
  if strLe a b then (a, b) else (b, a)

/-- `start_combat`: register the sorted name pair (dict insert; an
existing key keeps its position). -/
def startCombat (w : World) (atk df : EntRef) : World :=
  let pr := sortedPair (w.targetName atk) (w.targetName df)
  if w.combatants.contains pr then w
  else { w with combatants := w.combatants ++ [pr] }

/-- `stop_combat`: delete the sorted name pair if registered. -/
def stopCombat (w : World) (atk df : EntRef) : World :=
  { w with combatants :=
      w.combatants.erase (sortedPair (w.targetName atk) (w.targetName df)) }

/-- `in_combat`: some registered pair mentions the entity's name. -/
def inCombat (w : World) (e : EntRef) : Bool :=
  let n := w.targetName e
  w.combatants.any (fun pr => pr.1 == n || pr.2 == n)

/-- `find_entity_globally(name)`: first scan the `players` registry for a
case-insensitive name match, then every room's `mobs` in insertion order
for a mob whose `short_desc` matches exactly (case-insensitively) or one
of whose keywords contains the name as a substring. -/
def findEntityGlobally (w : World) (name : String) : Option EntRef :=
  let nl := pyLower name
  match w.players.find? (fun p => pyLower p.name == nl) with
  | some p => some (EntRef.player p.name)
  | none =>
    w.rooms.findSome? fun r =>
      r.mobs.findSome? fun i =>
        match w.getMob i with
        | some m =>
          if pyLower m.short_desc == nl
              || m.keywords.any (fun kw => strIn nl (pyLower kw)) then
            some (EntRef.mob i)
          else none
        | none => none

/-! ## Death handling and attack resolution (`handle_defeat`,
`check_level_up`, `unlock_achievement`, `player_attack`) -/

/-- `unlock_achievement(name, player)`: if the global achievement exists
and is still locked, mark it unlocked and append it (name, description,
unlocked) to the player's list. -/
def unlockAchievement (w : World) (aname pname : String) : World :=
  match w.achievements.find? (·.1 == aname) with
  | some (_, desc, unlocked) =>
    if unlocked then w
    else
      let w1 := { w with achievements :=
        w.achievements.map (fun (a : String × String × Bool) =>
          if a.1 == aname then (aname, desc, true) else a) }
      match w1.getPlayer pname with
      | some p =>
        w1.setPlayer { p with achievements := p.achievements ++ [(aname, desc, true)] }
      | none => w1
  | none => w

/-- `check_level_up(player)`: at `experience ≥ level * 100` gain a level,
5 skill points, and recompute the derived stats from the attributes
(`max_hp = vitality*15`, `max_mana = intelligence*15`,
`attack_power = strength*3`, `defense = int(agility*1.5)`), refilling hp
and mana; reaching level 10 unlocks the `Level 10` achievement. -/
def checkLevelUp (w : World) (pname : String) : World :=
  match w.getPlayer pname with
  | none => w
  | some p =>
    if p.experience ≥ p.level * 100 then
      let p1 : PlayerRec :=
        { p with level := p.level + 1,
                 skill_points := p.skill_points + 5,
                 max_hp := p.vitality * 15,
                 hp := p.vitality * 15,
                 max_mana := p.intelligence * 15,
                 mana := p.intelligence * 15,
                 attack_power := p.strength * 3,
                 defense := Int.tdiv (p.agility * 3) 2 }
      let w1 := w.setPlayer p1
      if p1.level == 10 then unlockAchievement w1 "Level 10" pname else w1
    else w

/-- `handle_defeat(attacker, defender)`: drop the combat pair; a defeated
player is refilled and retargeted at safe room 2201 (its old and new
rooms' `players` lists are not touched — the code only reassigns
`current_room`); a defeated mob killed by a player yields
`level * 20` experience (1.5× under an invasion event for an invasion-vnum
mob, the bonus being `int(base_xp * 0.5)`), unlocks `First Blood`, is
removed from its room's `mobs` list, triggers a level-up check, and a
remaining live hostile mob in the attacker's room re-engages. -/
def handleDefeat (w : World) (atk df : EntRef) : World :=
  let w := stopCombat w atk df
  match df with
  | .player dn =>
    match w.getPlayer dn with
    | none => w
    | some d =>
      let d1 := { d with hp := d.max_hp, mana := d.max_mana }
      if w.hasRoom 2201 then
        w.setPlayer { d1 with current_room_vnum := 2201 }
      else w.setPlayer d1
  | .mob mi =>
    match atk with
    | .mob _ => w
    | .player an =>
      match w.getMob mi, w.getPlayer an with
      | some m, some a =>
        let base_xp := m.level * 20
        let invasionBonus :=
          decide (9900 ≤ m.vnum) && decide (m.vnum ≤ 9999) &&
            (match w.active_events.find? (fun ev => ev.1 == a.current_room_vnum) with
             | some ev => ev.2 == "invasion"
             | none => false)
        let gained := if invasionBonus then base_xp + Int.tdiv base_xp 2 else base_xp
        let w1 := w.setPlayer { a with experience := a.experience + gained }
        let w2 := unlockAchievement w1 "First Blood" an
        let w3 :=
          match m.current_room_vnum with
          | some rv =>
            match w2.getRoom rv with
            | some r =>
              if r.mobs.contains mi then w2.setRoom { r with mobs := r.mobs.erase mi }
              else w2
            | none => w2
          | none => w2
        let w4 := checkLevelUp w3 an
        match w4.getPlayer an with
        | none => w4
        | some a4 =>
          match w4.getRoom a4.current_room_vnum with
          | none => w4
          | some ar =>
            let remaining := ar.mobs.filter fun i =>
              match w4.getMob i with
              | some rm => !rm.is_npc && rm.hp > 0
              | none => false
            match remaining with
            | [] => w4
            | nxt :: _ =>
              if !inCombat w4 (.player an) then
                startCombat w4 (.player an) (.mob nxt)
              else w4
      | _, _ => w

/-- `hit_chance = 85 + (attacker_level - defender_level) * 5`, clamped to
`[10, 95]`. -/
def hitChance (al dl : Int) : Int :=
  max 10 (min 95 (85 + (al - dl) * 5))

/-- The hit branch of `player_attack` after the to-hit roll succeeds:
`base_damage = randint(ap//2, ap + ap//4)`; a critical
(`randint(1,100) ≤ 5 + max(0, al - dl)`) multiplies it by 1.5 (truncated);
`damage = max(1, base - defense)`; a variance
`randint(-damage//4, damage//4)` is drawn only when `damage > 4`; the
final damage is floored at 1 again.  Returns `((finalDamage, critical),
rest-of-stream)`. -/
def damageRoll (ap dfn al dl : Int) (rng : List Nat) :
    (Int × Bool) × List Nat :=
  let r1 := randint (Int.fdiv ap 2) (ap + Int.fdiv ap 4) rng
  let r2 := randint 1 100 r1.2
  let isCrit := r2.1 ≤ 5 + max 0 (al - dl)
  let bd := if isCrit then Int.tdiv (r1.1 * 3) 2 else r1.1
  let damage := max 1 (bd - dfn)
  let r3 :=
    if damage > 4 then randint (Int.fdiv (-damage) 4) (Int.fdiv damage 4) r2.2
    else (0, r2.2)
  ((max 1 (damage + r3.1), isCrit), r3.2)

/-- Outcome tag of one `player_attack` call (which of the two message
branches ran, and the damage applied on a hit). -/
inductive AttackOutcome where
  | missed
  | hit (finalDamage : Int) (critical : Bool)
deriving DecidableEq, Repr

/-- `player_attack(attacker, defender)`: roll `randint(1,100)` against the
clamped hit chance; a miss only picks a flavour message (one
`random.choice` draw) and returns; a hit rolls damage per `damageRoll`,
floors the defender's hp at 0 (`max(0, hp - final_damage)`), picks a
flavour message, and runs `handle_defeat` when the defender's hp is now
≤ 0. -/
def playerAttack (w : World) (atk df : EntRef) : World × AttackOutcome :=
  let al := w.entLevel atk
  let dl := w.entLevel df
  let h := randint 1 100 w.rng
  if h.1 > hitChance al dl then
    ({ w with rng := h.2.tail }, AttackOutcome.missed)
  else
    let dr := damageRoll (w.entAttackPower atk) (w.entDefense df) al dl h.2
    let fd := dr.1.1
    let w1 := { w with rng := dr.2 }
    let w2 := w1.entSetHp df (max 0 (w1.entHp df - fd))
    let w3 := { w2 with rng := w2.rng.tail }
    let w4 := if w3.entHp df ≤ 0 then handleDefeat w3 atk df else w3
    (w4, AttackOutcome.hit fd dr.1.2)

/-- One tick of the combat loop, `combat_round()`: iterate a snapshot of
the registered pairs; per pair re-resolve both names; a failed resolution
or non-positive hp marks the pair for removal with no attack; otherwise
the first-named entity attacks, and unless the defender's hp is now ≤ 0
the defender retaliates; a side at hp ≤ 0 after its exchange step marks
the pair.  Marked pairs are deleted (if still present) after the
iteration. -/
def combatRound (w : World) : World :=
  let step := fun (acc : World × List (String × String)) (pr : String × String) =>
    let w := acc.1
    match findEntityGlobally w pr.1, findEntityGlobally w pr.2 with
    | some e1, some e2 =>
      if w.entHp e1 ≤ 0 || w.entHp e2 ≤ 0 then (w, acc.2 ++ [pr])
      else
        let wa := (playerAttack w e1 e2).1
        if wa.entHp e2 ≤ 0 then (wa, acc.2 ++ [pr])
        else
          let wb := (playerAttack wa e2 e1).1
          if wb.entHp e1 ≤ 0 then (wb, acc.2 ++ [pr]) else (wb, acc.2)
    | _, _ => (w, acc.2 ++ [pr])
  let res := w.combatants.foldl step (w, [])
  { res.1 with combatants :=
      res.2.foldl (fun cs pr => cs.erase pr) res.1.combatants }

/-! ## Persistence (`Player.to_dict` / `Player.from_dict`,
`save_player_profile` / `load_player_profile`)

`save_player_profile` JSON-serialises `to_dict`'s dict and
`load_player_profile` feeds the parsed dict to `from_dict` on a freshly
constructed `Player` of the same name; the JSON layer is the identity on
this structured record, so the file round-trip is `fromDict ∘ toDict`.
The `quests` entry is the one `to_dict` key not modelled here (its
objective objects are not JSON-serialisable in the source). -/

/-- The dict produced by `Player.to_dict`, field for field. -/
structure PlayerSave where
  name : String
  strength : Int
  agility : Int
  intelligence : Int
  vitality : Int
  skill_points : Int
  max_hp : Int
  hp : Int
  max_mana : Int
  mana : Int
  attack_power : Int
  defense : Int
  level : Int
  experience : Int
  inventory : List ObjRec
  equipment : List (String × Option ObjRec)
  status_effects : List String
  spells : List String
  reputation : Int
  karma : Int
  achievements : List (String × String × Bool)
  pets : List (String × Int × Int × Int)
  current_pet : Option String
  rooms_visited : List Int
  current_room_vnum : Int
deriving DecidableEq, Repr

/-- `Player.to_dict`: serialise every object by its seven fields, the
spellbook by its key list, pets and achievements by tuples, the active pet
by name, and `current_room` by vnum (2201 if absent). -/
def toDict (p : PlayerRec) : PlayerSave where
  name := p.name
  strength := p.strength
  agility := p.agility
  intelligence := p.intelligence
  vitality := p.vitality
  skill_points := p.skill_points
  max_hp := p.max_hp
  hp := p.hp
  max_mana := p.max_mana
  mana := p.mana
  attack_power := p.attack_power
  defense := p.defense
  level := p.level
  experience := p.experience
  inventory := p.inventory
  equipment := p.equipment
  status_effects := p.status_effects
  spells := p.spellbook.map (·.1)
  reputation := p.reputation
  karma := p.karma
  achievements := p.achievements
  pets := p.pets
  current_pet := p.current_pet
  rooms_visited := p.rooms_visited
  current_room_vnum := p.current_room_vnum

/-- `Player.from_dict(data)` applied to the freshly constructed player
`self`: load every scalar unclamped, rebuild inventory objects, reset the
equipment slots to the four empty slots then copy the saved ones, keep
only saved spells that still exist in the global `spells` table, rebuild
pets and resolve the active pet by name (a missing or empty name leaves
it `None`), dedupe `rooms_visited` through `set(...)`, and resolve
`current_room_vnum` against `rooms` with fallback 2201. -/
def fromDict (rooms : List Room) (gspells : List (String × SpellRec))
    (self : PlayerRec) (d : PlayerSave) : PlayerRec :=
  let equipment0 : List (String × Option ObjRec) :=
    [("weapon", none), ("armor", none), ("ring", none), ("amulet", none)]
  let pets := d.pets
  { self with
    strength := d.strength
    agility := d.agility
    intelligence := d.intelligence
    vitality := d.vitality
    skill_points := d.skill_points
    max_hp := d.max_hp
    hp := d.hp
    max_mana := d.max_mana
    mana := d.mana
    attack_power := d.attack_power
    defense := d.defense
    level := d.level
    experience := d.experience
    inventory := d.inventory
    equipment := d.equipment.foldl (fun eq kv => dictSet eq kv.1 kv.2) equipment0
    status_effects := d.status_effects
    spellbook := d.spells.filterMap fun n =>
      (gspells.find? (·.1 == n)).map fun sr => (n, sr.2)
    reputation := d.reputation
    karma := d.karma
    achievements := d.achievements
    pets := pets
    current_pet :=
      match d.current_pet with
      | none => none
      | some n =>
        if n == "" then none
        else if pets.any (·.1 == n) then some n else none
    rooms_visited := d.rooms_visited.dedup
    current_room_vnum :=
      if rooms.any (·.vnum == d.current_room_vnum) then d.current_room_vnum
      else 2201 }

/-! ## Dialogue collaborator (`llm_chat` in mud-multi.py)

The HTTP exchange is modelled by its observable result and the decoded
JSON body by a value tree; the extraction
`result.get('choices', [{}])[0].get('message', {}).get('content', '')`
is embedded operation by operation with the Python exception each step can
raise. -/

/-- A decoded JSON value. -/
inductive Jv where
  | null
  | str (s : String)
  | num (n : Int)
  | boolean (b : Bool)
  | arr (xs : List Jv)
  | obj (fields : List (String × Jv))

/-- The Python exception classes the extraction can raise. -/
inductive PyExc where
  | requestError   -- requests.RequestException / ConnectionError / Timeout
  | valueError     -- response.json() decode failure
  | keyError
  | indexError
  | attributeError
  | typeError
deriving DecidableEq, Repr

/-- Result of `requests.post` + `raise_for_status` + `response.json()`. -/
inductive LlmHttpResult where
  | network_error   -- post raises (timeout, refused, reset, ...)
  | http_error      -- raise_for_status raises HTTPError (a RequestException)
  | bad_json        -- response.json() raises ValueError
  | ok (body : Jv)

/-- `v.get(key, default)`: dict lookup with default; any non-dict receiver
raises AttributeError. -/
def jvGet (v : Jv) (key : String) (dflt : Jv) : Except PyExc Jv :=
  match v with
  | .obj fs =>
    match fs.find? (·.1 == key) with
    | some kv => .ok kv.2
    | none => .ok dflt
  | _ => .error .attributeError

/-- `v[0]`: list indexing (IndexError on an empty list), dict indexing by
the non-string key 0 (KeyError on JSON-decoded dicts), string indexing
(IndexError on the empty string), TypeError otherwise. -/
def jvIndex0 (v : Jv) : Except PyExc Jv :=
  match v with
  | .arr [] => .error .indexError
  | .arr (x :: _) => .ok x
  | .obj _ => .error .keyError
  | .str s =>
    if s.isEmpty then .error .indexError
    else .ok (.str (String.singleton (s.get 0)))
  | _ => .error .typeError

/-- `.strip()`: only strings have it. -/
def jvStrip (v : Jv) : Except PyExc String :=
  match v with
  | .str s => .ok s.trim
  | _ => .error .attributeError

/-- The reply-extraction expression of `llm_chat`. -/
def extractReply (body : Jv) : Except PyExc String := do
  let choices ← jvGet body "choices" (.arr [.obj []])
  let first ← jvIndex0 choices
  let message ← jvGet first "message" (.obj [])
  let content ← jvGet message "content" (.str "")
  jvStrip content

/-- The canned reply used both for an empty extraction and in the
`except` handler. -/
def fallbackReply : String := "I'm sorry, I don't have anything to say right now."

/-- `llm_chat(conversation_history)`: run the request and the extraction;
an empty stripped reply becomes the fallback line; the `except` clause
turns `RequestException` (which covers the connection, timeout and HTTP
status cases), `ValueError` and `KeyError` into the fallback line — any
other exception (notably `IndexError` from an empty `choices` list)
propagates to the caller. -/
def llmChat (resp : LlmHttpResult) : Except PyExc String :=
  let attempt : Except PyExc String :=
    match resp with
    | .network_error => .error .requestError
    | .http_error => .error .requestError
    | .bad_json => .error .valueError
    | .ok body => extractReply body
  match attempt with
  | .ok s => .ok (if s == "" then fallbackReply else s)
  | .error e =>
    match e with
    | .requestError => .ok fallbackReply
    | .valueError => .ok fallbackReply
    | .keyError => .ok fallbackReply
    | _ => .error e

/-! ## Spell casting (`cast_spell`, `Spell.cast` in mud-multi.py) -/

/-- Which branch of `cast_spell` ran (each tag corresponds to one of the
function's messages / exits). -/
inductive CastOutcome where
  | unknownSpell
  | notEnoughMana
  | targetMissing   -- requires_target with no target argument
  | targetNotFound
  | success
  | spellFailed     -- spell.cast returned falsy: mana refunded
  | spellError      -- spell.cast raised: mana refunded
deriving DecidableEq, Repr

/-- The effect runner abstracts `spell.cast(player, target)` inside the
`try`: it returns the mutated world plus either the returned truthiness or
the world at the point an exception was raised. -/
def SpellRunner : Type :=
  World → Option EntRef → World × Except Unit Bool

/-- The target-resolution block of `cast_spell`: a targeted spell with no
target argument fails; otherwise the caster's room is searched, first for
a mob whose lowered keyword list contains the lowered target name
exactly, then for another player there by case-insensitive name; a
search with no match fails. -/
def resolveSpellTarget (w : World) (pname : String) (p : PlayerRec)
    (spell : SpellRec) (targetName : Option String) :
    Except CastOutcome (Option EntRef) :=
  if spell.requires_target then
    match targetName with
    | none => .error CastOutcome.targetMissing
    | some tn =>
      match w.getRoom p.current_room_vnum with
      | none => .error CastOutcome.targetNotFound
      | some room =>
        let mobHit := room.mobs.find? fun i =>
          match w.getMob i with
          | some m => (m.keywords.map pyLower).contains (pyLower tn)
          | none => false
        match mobHit with
        | some i => .ok (some (EntRef.mob i))
        | none =>
          let playerHit := room.players.find? fun n =>
            n != pname && pyLower n == pyLower tn
          match playerHit with
          | some n => .ok (some (EntRef.player n))
          | none => .error CastOutcome.targetNotFound
  else .ok none

/-- `cast_spell(player, spell_name, target_name)`: spellbook check, mana
check, then for targeted spells the room search (first a mob whose
lowered keyword list contains the lowered target name exactly, then
another player in the room by case-insensitive name), all early failures
leaving the world unchanged; then `player.mana -= spell.mana_cost`, the
spell effect, and a refund `player.mana += spell.mana_cost` when the
effect returns falsy or raises. -/
def castSpell (run : SpellRunner) (w : World) (pname spellName : String)
    (targetName : Option String) : World × CastOutcome :=
  match w.getPlayer pname with
  | none => (w, CastOutcome.unknownSpell)
  | some p =>
    match p.spellbook.find? (·.1 == spellName) with
    | none => (w, CastOutcome.unknownSpell)
    | some (_, spell) =>
      if p.mana < spell.mana_cost then (w, CastOutcome.notEnoughMana)
      else
        match resolveSpellTarget w pname p spell targetName with
        | .error out => (w, out)
        | .ok target =>
          let w1 := w.setPlayer { p with mana := p.mana - spell.mana_cost }
          let r := run w1 target
          match r.2 with
          | .ok true => (r.1, CastOutcome.success)
          | .ok false =>
            match r.1.getPlayer pname with
            | some p2 => ((r.1.setPlayer { p2 with mana := p2.mana + spell.mana_cost }),
                          CastOutcome.spellFailed)
            | none => (r.1, CastOutcome.spellFailed)
          | .error _ =>
            match r.1.getPlayer pname with
            | some p2 => ((r.1.setPlayer { p2 with mana := p2.mana + spell.mana_cost }),
                          CastOutcome.spellError)
            | none => (r.1, CastOutcome.spellError)

/-! ## Concrete sample states

Small worlds used to evaluate the embedded operations on concrete inputs.
`mkPlayer` mirrors `Player.__init__`'s defaults (strength/agility/
intelligence 5, vitality 8, hence `max_hp = 120`, `max_mana = 75`,
`attack_power = 15`, `defense = int(7.5) = 7`). -/

def mkPlayer (n : String) (room : Int) : PlayerRec where
  name := n
  strength := 5
  agility := 5
  intelligence := 5
  vitality := 8
  skill_points := 0
  max_hp := 120
  hp := 120
  max_mana := 75
  mana := 75
  attack_power := 15
  defense := 7
  level := 1
  experience := 0
  inventory := []
  equipment := [("weapon", none), ("armor", none), ("ring", none), ("amulet", none)]
  resting := false
  status_effects := []
  spellbook := []
  reputation := 0
  karma := 0
  achievements := []
  pets := []
  current_pet := none
  companion_room := none
  pet_room := none
  rooms_visited := [room]
  current_room_vnum := room

def mkRoom (v : Int) (nm : String) (ps : List String) (ms : List Nat) : Room where
  vnum := v
  name := nm
  exits := []
  players := ps
  mobs := ms

/-- Two-room world for the teleport evaluation: Alice stands in room 2201
and room 2202 is empty. -/
def wTele : World where
  rooms := [mkRoom 2201 "Temple Square" ["Alice"] [], mkRoom 2202 "Market Street" [] []]
  mobs := []
  players := [mkPlayer "Alice" 2201]
  combatants := []
  active_events := []
  achievements := []
  rng := []

/-- A hostile low-level goblin. -/
def goblin : Mob where
  vnum := 3001
  keywords := ["goblin"]
  short_desc := "a goblin"
  level := 2
  attack_power := 4
  defense := 2
  hp := 12
  max_hp := 12
  is_npc := false
  current_room_vnum := some 2201

/-- Alice fighting a goblin in room 2201. -/
def wCombat : World where
  rooms := [{ vnum := 2201, name := "Temple Square", exits := [], players := ["Alice"], mobs := [1] }]
  mobs := [(1, goblin)]
  players := [mkPlayer "Alice" 2201]
  combatants := [("Alice", "a goblin")]
  active_events := []
  achievements := [("First Blood", "Defeat your first enemy.", false), ("Level 10", "Reach level 10.", false)]
  rng := []

/-- A heavy-hitting ogre used to defeat a player in one blow. -/
def ogre : Mob where
  vnum := 3100
  keywords := ["ogre"]
  short_desc := "an ogre"
  level := 1
  attack_power := 100
  defense := 0
  hp := 30
  max_hp := 30
  is_npc := false
  current_room_vnum := some 3001

/-- Player zed (5 hp, no defence) fighting the ogre in room 3001; room
2201 is the safe room.  The random stream drives: hit, base 50, no crit,
variance 0, message; then for the retaliation hit, base 7, no crit,
variance 0, message. -/
def wKill : World where
  rooms := [mkRoom 2201 "Temple Square" [] [], mkRoom 3001 "Cave" ["zed"] [1]]
  mobs := [(1, ogre)]
  players := [{ mkPlayer "zed" 3001 with hp := 5, defense := 0 }]
  combatants := [("an ogre", "zed")]
  active_events := []
  achievements := [("First Blood", "Defeat your first enemy.", false), ("Level 10", "Reach level 10.", false)]
  rng := [0, 0, 50, 13, 0, 0, 0, 50, 2, 0]

/-- ann and ben are registered as a combat pair but stand in different
rooms; the stream makes all to-hit rolls miss (draw 100 against an 85%
chance). -/
def wApart : World where
  rooms := [mkRoom 100 "North Tower" ["ann"] [], mkRoom 200 "South Tower" ["ben"] []]
  mobs := []
  players := [mkPlayer "ann" 100, mkPlayer "ben" 200]
  combatants := [("ann", "ben")]
  active_events := []
  achievements := []
  rng := [99, 0, 99, 0]

/-- Same two players, but ben is already at 0 hp. -/
def wApartDead : World where
  rooms := [mkRoom 100 "North Tower" ["ann"] [], mkRoom 200 "South Tower" ["ben"] []]
  mobs := []
  players := [mkPlayer "ann" 100, { mkPlayer "ben" 200 with hp := 0 }]
  combatants := [("ann", "ben")]
  active_events := []
  achievements := []
  rng := [99, 0, 99, 0]

/-- Room 2201 with a closed (flag 1) north door towards 2202. -/
def wDoor : World where
  rooms :=
    [{ vnum := 2201, name := "Temple Square",
       exits := [(0, { to_room_vnum := 2202, door_flags := 1, is_open := false, is_locked := false })],
       players := ["Alice"], mobs := [] },
     mkRoom 2202 "Market Street" [] []]
  mobs := []
  players := [mkPlayer "Alice" 2201]
  combatants := []
  active_events := []
  achievements := []
  rng := []

/-! ## The spell effects themselves (`Spell.cast`,
`Spell._cast_offensive`, `Spell._cast_healing`,
`Spell._cast_area_offensive`) -/

/-- One iteration of the area sweep: apply the damage roll to one target
(hp floored at 0) and record it among the defeated when its hp is now
≤ 0. -/
def areaHitStep (dmg : Int) (acc : World × List EntRef) (t : EntRef) :
    World × List EntRef :=
  let wB := acc.1.entSetHp t (max 0 (acc.1.entHp t - dmg))
  (wB, if wB.entHp t ≤ 0 then acc.2 ++ [t] else acc.2)

/-- Death handling for one player defeated by the area sweep: refill hp
and mana, and when safe room 2201 exists, remove the player from the
caster's room's occupant list, retarget `current_room` and append to the
safe room's list. -/
def areaHandleDeath (roomVnum : Int) (wA : World) (n : String) : World :=
  match wA.getPlayer n with
  | none => wA
  | some q =>
    let q1 := { q with hp := q.max_hp, mana := q.max_mana }
    let wB := wA.setPlayer q1
    if wB.hasRoom 2201 then
      let wC :=
        match wB.getRoom roomVnum with
        | some r3 =>
          if r3.players.contains n then
            wB.setRoom { r3 with players := r3.players.erase n }
          else wB
        | none => wB
      let wD := wC.setPlayer { q1 with current_room_vnum := 2201 }
      match wD.getRoom 2201 with
      | some r4 => wD.setRoom { r4 with players := r4.players ++ [n] }
      | none => wD
    else wB

/-- `Spell._cast_area_offensive(caster)`: targets are every non-NPC mob
in the caster's room plus every other player there; no target is a
failure (`False`); otherwise one damage roll is applied to each target,
defeated targets are collected during the sweep, defeated mobs are
removed from the room only after it, and each defeated player is refilled
(hp and mana) and relocated to safe room 2201 with both occupant lists
maintained. -/
def areaOffensive (spell : SpellRec) (casterName : String) (w : World) :
    World × Except Unit Bool :=
  match w.getPlayer casterName with
  | none => (w, .error ())
  | some c =>
    match w.getRoom c.current_room_vnum with
    | none => (w, .error ())
    | some room =>
      let mobTargets := (room.mobs.filter fun i =>
          match w.getMob i with
          | some m => !m.is_npc
          | none => false).map EntRef.mob
      let playerTargets :=
        (room.players.filter (fun n => n != casterName)).map EntRef.player
      let targets := mobTargets ++ playerTargets
      if targets.isEmpty then (w, .ok false)
      else
        let r := randint spell.base_damage_lo spell.base_damage_hi w.rng
        let dmg := c.intelligence * spell.damage_multiplier + r.1
        let w1 := { w with rng := r.2 }
        let dres := targets.foldl (areaHitStep dmg) (w1, [])
        let mobsToRemove := dres.2.filterMap fun t =>
            match t with
            | .mob i => if room.mobs.contains i then some i else none
            | .player _ => none
        let playersToHandle := dres.2.filterMap fun t =>
            match t with
            | .player n => some n
            | .mob _ => none
        let w3 :=
          match dres.1.getRoom room.vnum with
          | some r2 =>
            dres.1.setRoom { r2 with mobs := mobsToRemove.foldl (fun l i => l.erase i) r2.mobs }
          | none => dres.1
        let w4 := playersToHandle.foldl (areaHandleDeath room.vnum) w3
        (w4, .ok true)

/-- `Spell.cast(caster, target)`: dispatch on `spell_type`.  An offensive
spell needs a target and deals `intelligence * damage_multiplier +
randint(base_damage)` (hp floored at 0); its message lines then read
`target.short_desc` unconditionally, an attribute `Player` does not have,
so with a player target the source raises `AttributeError` after the hp
write and the already-applied damage survives while the `try` of
`cast_spell` catches the exception — modelled as `.error ()` on the
mutated world.  A healing spell heals the caster (hp clamped into
`[0, max_hp]`); `area_offensive` is `areaOffensive` (whose messages do
guard with `hasattr`); an unknown type reports failure.  The remaining
`.error ()` guard branches mark attribute accesses that would raise
inside the `try` of `cast_spell`. -/
def castImpl (spell : SpellRec) (casterName : String) : SpellRunner := fun w target =>
  if spell.spell_type == "offensive" then
    match target with
    | none => (w, .ok false)
    | some t =>
      match w.getPlayer casterName with
      | none => (w, .error ())
      | some c =>
        let r := randint spell.base_damage_lo spell.base_damage_hi w.rng
        let dmg := c.intelligence * spell.damage_multiplier + r.1
        let w1 := { w with rng := r.2 }
        let w2 := w1.entSetHp t (max 0 (w1.entHp t - dmg))
        match t with
        | EntRef.mob _ => (w2, .ok true)
        | EntRef.player _ => (w2, .error ())
  else if spell.spell_type == "healing" then
    match w.getPlayer casterName with
    | none => (w, .error ())
    | some c =>
      let r := randint spell.base_heal_lo spell.base_heal_hi w.rng
      let heal := c.intelligence * spell.heal_multiplier + r.1
      let w1 := { w with rng := r.2 }
      (w1.setPlayer { c with hp := max 0 (min c.max_hp (c.hp + heal)) }, .ok true)
  else if spell.spell_type == "area_offensive" then
    areaOffensive spell casterName w
  else (w, .ok false)

/-- `cast_spell` with the real `spell.cast` effect plugged in: the same
spellbook lookup feeds the runner. -/
def castSpellFull (w : World) (pname spellName : String)
    (targetName : Option String) : World × CastOutcome :=
  match w.getPlayer pname with
  | none => (w, CastOutcome.unknownSpell)
  | some p =>
    match p.spellbook.find? (·.1 == spellName) with
    | none => (w, CastOutcome.unknownSpell)
    | some (_, spell) => castSpell (castImpl spell pname) w pname spellName targetName

/-- A sample targeted offensive spell in the shape of the catalog's
fireball entry. -/
def fireball : SpellRec where
  name := "fireball"
  mana_cost := 15
  spell_type := "offensive"
  requires_target := true
  damage_multiplier := 2
  base_damage_lo := 5
  base_damage_hi := 10
  heal_multiplier := 0
  base_heal_lo := 0
  base_heal_hi := 0

/-- Alice, knowing fireball, facing the goblin. -/
def wCast : World where
  rooms := [{ vnum := 2201, name := "Temple Square", exits := [], players := ["Alice"], mobs := [1] }]
  mobs := [(1, goblin)]
  players := [{ mkPlayer "Alice" 2201 with spellbook := [("fireball", fireball)] }]
  combatants := []
  active_events := []
  achievements := []
  rng := [3]

/-- Alice, knowing fireball, sharing room 2201 with the player Bob and no
mobs: a player-targeted offensive cast. -/
def wCastP : World where
  rooms := [{ vnum := 2201, name := "Temple Square", exits := [], players := ["Alice", "Bob"], mobs := [] }]
  mobs := []
  players := [{ mkPlayer "Alice" 2201 with spellbook := [("fireball", fireball)] }, mkPlayer "Bob" 2201]
  combatants := []
  active_events := []
  achievements := []
  rng := [3]

/-- Saved-profile check data: a level-3 player with an item, standing in
room 2202. -/
def swordObj : ObjRec where
  vnum := 5001
  keywords := ["sword"]
  short_desc := "a steel sword"
  long_desc := "A steel sword lies here."
  description := "A well-balanced steel sword."
  item_type := "weapon"
  effects := [("attack_power", 5)]

def savedPlayer : PlayerRec :=
  { mkPlayer "Alice" 2202 with
      level := 3, experience := 250, hp := 77, mana := 40,
      inventory := [swordObj], spellbook := [("fireball", fireball)] }

/-! ## Theorems -/

/-- A login attempt keeps the registry free of case-insensitive
duplicates. -/
theorem noCaseDup_loginAttempt (reg : List String) (n : String)
    (h : NoCaseDup reg) : NoCaseDup (loginAttempt reg n).2 := by
  unfold loginAttempt NoCaseDup at *
  split
  · exact h
  · rename_i hc
    simp only [List.map_append, List.map_cons, List.map_nil]
    rw [List.nodup_append]
    refine ⟨h, List.nodup_singleton _, ?_⟩
    intro a ha hb
    simp only [List.mem_singleton] at hb
    subst hb
    exact hc (by simpa [List.elem_iff] using ha)

/-- The rejecting branch of `loginAttempt`. -/
theorem loginAttempt_pos {reg : List String} {n : String}
    (h : (reg.map pyLower).contains (pyLower n) = true) :
    loginAttempt reg n = (LoginResult.nameTaken, reg) := by
  unfold loginAttempt
  rw [h]
  simp

/-- The admitting branch of `loginAttempt`. -/
theorem loginAttempt_neg {reg : List String} {n : String}
    (h : ¬(reg.map pyLower).contains (pyLower n) = true) :
    loginAttempt reg n = (LoginResult.ok, reg ++ [n]) := by
  rw [Bool.not_eq_true] at h
  unfold loginAttempt
  rw [h]
  simp

/-- C2: session creation checks availability case-insensitively and
inserts inside one critical section.  Serialising two attempts whose
names are equal up to case (in either order, which the lock guarantees):
at most one gets `ok`; a `nameTaken` response leaves the registry exactly
as it was; and the no-case-duplicate invariant holds after both
attempts. -/
theorem login_case_insensitive_atomic (reg : List String) (n1 n2 : String)
    (hcase : pyLower n1 = pyLower n2) (hnd : NoCaseDup reg) :
    ((loginAttempt reg n1).1 = LoginResult.nameTaken ∨
      (loginAttempt (loginAttempt reg n1).2 n2).1 = LoginResult.nameTaken) ∧
    ((loginAttempt reg n1).1 = LoginResult.nameTaken →
      (loginAttempt reg n1).2 = reg) ∧
    ((loginAttempt (loginAttempt reg n1).2 n2).1 = LoginResult.nameTaken →
      (loginAttempt (loginAttempt reg n1).2 n2).2 = (loginAttempt reg n1).2) ∧
    NoCaseDup (loginAttempt (loginAttempt reg n1).2 n2).2 := by
  refine ⟨?_, ?_, ?_, noCaseDup_loginAttempt _ _ (noCaseDup_loginAttempt _ _ hnd)⟩
  · by_cases hmem : (reg.map pyLower).contains (pyLower n1) = true
    · left
      rw [loginAttempt_pos hmem]
    · right
      rw [loginAttempt_neg hmem]
      have hmem2 : (((reg ++ [n1]).map pyLower).contains (pyLower n2)) = true := by
        simp [List.elem_iff, ← hcase]
      rw [loginAttempt_pos hmem2]
  · intro h
    by_cases hmem : (reg.map pyLower).contains (pyLower n1) = true
    · rw [loginAttempt_pos hmem]
    · rw [loginAttempt_neg hmem] at h
      exact absurd h (by simp)
  · intro h
    by_cases hmem : (((loginAttempt reg n1).2.map pyLower).contains (pyLower n2)) = true
    · rw [loginAttempt_pos hmem]
    · rw [loginAttempt_neg hmem] at h
      exact absurd h (by simp)

/-- Witness for C2: with `Alice` registered, a `Rogue` login succeeds and
a concurrent `rogue` login is rejected leaving the registry unchanged. -/
theorem login_case_insensitive_atomic_witness :
    (loginAttempt (loginAttempt ["Alice"] "Rogue").2 "rogue").1 = LoginResult.nameTaken ∧
    (loginAttempt (loginAttempt ["Alice"] "Rogue").2 "rogue").2 =
      (loginAttempt ["Alice"] "Rogue").2 := by
  have h := login_case_insensitive_atomic ["Alice"] "Rogue" "rogue" (by decide) (by decide)
  have h1 := h.1.resolve_left (by decide)
  exact ⟨h1, h.2.2.1 h1⟩

/-- C3: an attack misses exactly when the uniform draw on `[1, 100]`
exceeds the hit chance, and the hit chance is
`85 + 5 × (attacker level − defender level)` clamped into `[10, 95]`. -/
theorem attack_miss_iff_draw_exceeds (w : World) (atk df : EntRef)
    (d : Nat) (rest : List Nat) (hrng : w.rng = d :: rest) :
    ((playerAttack w atk df).2 = AttackOutcome.missed ↔
      1 + (d : Int) % 100 > hitChance (w.entLevel atk) (w.entLevel df)) ∧
    hitChance (w.entLevel atk) (w.entLevel df) =
      max 10 (min 95 (85 + 5 * (w.entLevel atk - w.entLevel df))) := by
  have h100 : (100 : Int) - 1 + 1 = 100 := by norm_num
  constructor
  · unfold playerAttack
    rw [hrng]
    simp only [randint, h100]
    split
    · rename_i hgt
      simpa using hgt
    · rename_i hle
      simp only [not_lt] at hle
      simp
      omega
  · unfold hitChance
    ring_nf

/-- The final damage of the hit branch is always at least 1 (it is
`max(1, damage + variance)`). -/
theorem damageRoll_ge_one (ap dfn al dl : Int) (rng : List Nat) :
    1 ≤ ((damageRoll ap dfn al dl rng).1).1 := by
  simp only [damageRoll]
  exact le_max_left 1 _

/-- C4: a hit always applies a final damage of at least 1, and a miss
changes nothing but the random stream — players, rooms, mobs and the
combat registry are untouched. -/
theorem attack_hit_damage_pos_miss_pure (w : World) (atk df : EntRef) :
    (∀ f c, (playerAttack w atk df).2 = AttackOutcome.hit f c → 1 ≤ f) ∧
    ((playerAttack w atk df).2 = AttackOutcome.missed →
      (playerAttack w atk df).1.players = w.players ∧
      (playerAttack w atk df).1.rooms = w.rooms ∧
      (playerAttack w atk df).1.mobs = w.mobs ∧
      (playerAttack w atk df).1.combatants = w.combatants) := by
  unfold playerAttack
  dsimp only
  split
  · refine ⟨?_, ?_⟩
    · intro f c hfc
      exact absurd hfc (by simp)
    · intro _
      exact ⟨rfl, rfl, rfl, rfl⟩
  · refine ⟨?_, ?_⟩
    · intro f c hfc
      simp only [AttackOutcome.hit.injEq] at hfc
      rw [← hfc.1]
      exact damageRoll_ge_one _ _ _ _ _
    · intro hm
      exact absurd hm (by simp)

/-- Witness for C3: with draw 100 against a clamped 80% chance (level 1
attacking level 2) the attack misses. -/
theorem attack_miss_iff_draw_exceeds_witness :
    (playerAttack { wCombat with rng := [99, 5] }
      (EntRef.player "Alice") (EntRef.mob 1)).2 = AttackOutcome.missed :=
  (attack_miss_iff_draw_exceeds _ _ _ 99 [5] rfl).1.mpr (by decide)

/-- Witness for C4: the ogre's scripted blow hits zed for 50 (≥ 1), and
ann's scripted miss against ben leaves every piece of combat state
unchanged. -/
theorem attack_hit_damage_pos_miss_pure_witness :
    (1 : Int) ≤ 50 ∧
    ((playerAttack wApart (EntRef.player "ann") (EntRef.player "ben")).1.players = wApart.players ∧
     (playerAttack wApart (EntRef.player "ann") (EntRef.player "ben")).1.rooms = wApart.rooms ∧
     (playerAttack wApart (EntRef.player "ann") (EntRef.player "ben")).1.mobs = wApart.mobs ∧
     (playerAttack wApart (EntRef.player "ann") (EntRef.player "ben")).1.combatants = wApart.combatants) :=
  ⟨(attack_hit_damage_pos_miss_pure wKill (EntRef.mob 1) (EntRef.player "zed")).1
      50 false (by decide),
   (attack_hit_damage_pos_miss_pure wApart (EntRef.player "ann") (EntRef.player "ben")).2
      (by decide)⟩

/-- C7: attempting to move through an exit that is a door (flag 1 or 3)
which is closed, or open but locked, returns before any mutation: the
whole world — the player's room reference, both occupancy lists, the door
state — is exactly the input world, and the player is told the door is
closed or locked. -/
theorem move_blocked_door_pure (w : World) (pname direction : String)
    (p : PlayerRec) (room : Room) (dn k : Int) (ex : ExitData)
    (hp : w.getPlayer pname = some p) (hrest : p.resting = false)
    (hd : reverseDirection direction = some dn)
    (hroom : w.getRoom p.current_room_vnum = some room)
    (hex : room.exits.find? (·.1 == dn) = some (k, ex))
    (hdoor : ex.door_flags = 1 ∨ ex.door_flags = 3)
    (hblock : ex.is_open = false ∨ ex.is_locked = true) :
    (playerMove w pname direction).1 = w ∧
    ((playerMove w pname direction).2 = ["The door is closed."] ∨
     (playerMove w pname direction).2 = ["The door is locked."]) := by
  unfold playerMove
  simp only [hp, hrest, hd, hroom, hex, Bool.false_eq_true, if_false]
  by_cases ho : ex.is_open
  · have hl : ex.is_locked = true := by
      rcases hblock with h | h
      · rw [ho] at h; cases h
      · exact h
    rcases hdoor with h1 | h1 <;> simp [h1, ho, hl]
  · have ho' : ex.is_open = false := by
      cases hxo : ex.is_open
      · rfl
      · exact absurd hxo ho
    rcases hdoor with h1 | h1 <;> simp [h1, ho']

/-- Witness for C7: Alice walking north into the closed door of `wDoor`
moves nothing and is told the door is closed. -/
theorem move_blocked_door_pure_witness :
    (playerMove wDoor "Alice" "north").1 = wDoor ∧
    ((playerMove wDoor "Alice" "north").2 = ["The door is closed."] ∨
     (playerMove wDoor "Alice" "north").2 = ["The door is locked."]) :=
  move_blocked_door_pure wDoor "Alice" "north" (mkPlayer "Alice" 2201)
    (wDoor.rooms.headD (mkRoom 0 "" [] [])) 0 0
    { to_room_vnum := 2202, door_flags := 1, is_open := false, is_locked := false }
    (by decide) (by decide) (by decide) (by decide) (by decide)
    (Or.inl (by decide)) (Or.inl (by decide))

/-- C1 (evaluation of the defect): in `wTele` the occupant-lists/room
invariant holds; `teleport 2202` retargets Alice's room reference to 2202
but leaves her in room 2201's occupant list and absent from 2202's, so
the invariant is broken by a relocation operation. -/
theorem teleport_breaks_room_player_inv :
    roomPlayerInv wTele = true ∧
    ((playerTeleport wTele "Alice" "2202").1.getPlayer "Alice").map
      PlayerRec.current_room_vnum = some 2202 ∧
    ((playerTeleport wTele "Alice" "2202").1.getRoom 2201).map Room.players =
      some ["Alice"] ∧
    ((playerTeleport wTele "Alice" "2202").1.getRoom 2202).map Room.players =
      some [] ∧
    roomPlayerInv (playerTeleport wTele "Alice" "2202").1 = false := by
  decide

/-- C8: saving a profile and loading it back (`fromDict` of `toDict`,
applied to the fresh player constructed at the next login) reproduces
level, experience, health, mana, the inventory contents and the current
room (whose vnum the loader re-resolves against the room table), and a
health within bounds stays within bounds — the loader copies `max_hp`
before `hp`, so health is never loaded above maximum health. -/
theorem save_load_roundtrip (rooms : List Room)
    (gspells : List (String × SpellRec)) (p self : PlayerRec)
    (hroom : rooms.any (·.vnum == p.current_room_vnum) = true) :
    (fromDict rooms gspells self (toDict p)).level = p.level ∧
    (fromDict rooms gspells self (toDict p)).experience = p.experience ∧
    (fromDict rooms gspells self (toDict p)).hp = p.hp ∧
    (fromDict rooms gspells self (toDict p)).mana = p.mana ∧
    (fromDict rooms gspells self (toDict p)).inventory = p.inventory ∧
    (fromDict rooms gspells self (toDict p)).current_room_vnum =
      p.current_room_vnum ∧
    (p.hp ≤ p.max_hp →
      (fromDict rooms gspells self (toDict p)).hp ≤
        (fromDict rooms gspells self (toDict p)).max_hp) := by
  unfold fromDict toDict
  refine ⟨rfl, rfl, rfl, rfl, rfl, ?_, fun h => h⟩
  simp [hroom]

/-- Witness for C8: the saved level-3 profile of `savedPlayer` reloads
with the same level, experience, health, mana, inventory and room. -/
theorem save_load_roundtrip_witness :
    (fromDict [mkRoom 2201 "Temple Square" [] [], mkRoom 2202 "Market Street" [] []]
        [("fireball", fireball)] (mkPlayer "Alice" 2201) (toDict savedPlayer)).level = 3 ∧
    (fromDict [mkRoom 2201 "Temple Square" [] [], mkRoom 2202 "Market Street" [] []]
        [("fireball", fireball)] (mkPlayer "Alice" 2201) (toDict savedPlayer)).hp = 77 ∧
    (fromDict [mkRoom 2201 "Temple Square" [] [], mkRoom 2202 "Market Street" [] []]
        [("fireball", fireball)] (mkPlayer "Alice" 2201) (toDict savedPlayer)).inventory =
      [swordObj] ∧
    (fromDict [mkRoom 2201 "Temple Square" [] [], mkRoom 2202 "Market Street" [] []]
        [("fireball", fireball)] (mkPlayer "Alice" 2201) (toDict savedPlayer)).current_room_vnum =
      2202 := by
  have h := save_load_roundtrip
    [mkRoom 2201 "Temple Square" [] [], mkRoom 2202 "Market Street" [] []]
    [("fireball", fireball)] savedPlayer (mkPlayer "Alice" 2201) (by decide)
  refine ⟨?_, ?_, ?_, ?_⟩
  · rw [h.1]; decide
  · rw [h.2.2.1]; decide
  · rw [h.2.2.2.2.1]; decide
  · rw [h.2.2.2.2.2.1]; decide

/-- C9 (counterexample): a syntactically well-formed response whose
`choices` field is an empty list makes `llm_chat` raise `IndexError` —
`IndexError` is not in the `except` tuple, so the call does not return
the fallback line but propagates the exception to game logic (where the
session loop's outer handler ends the session). -/
theorem llmChat_empty_choices_raises :
    llmChat (LlmHttpResult.ok (Jv.obj [("choices", Jv.arr [])])) =
      Except.error PyExc.indexError := rfl

/-- C9 (amended): every anticipated failure — transport/timeout/HTTP
errors, JSON decode failure — and every caught extraction error yields
the static fallback line; a returned reply is never empty (an empty
stripped reply is replaced by the fallback); but an uncaught
`IndexError`, `AttributeError` or `TypeError` from an unexpected response
shape (e.g. an empty `choices` list) escapes instead of producing the
fallback. -/
theorem llmChat_amended (resp : LlmHttpResult) :
    (∀ e, llmChat resp = Except.error e →
      e = PyExc.indexError ∨ e = PyExc.attributeError ∨ e = PyExc.typeError) ∧
    (∀ s, llmChat resp = Except.ok s → s ≠ "") ∧
    (resp = LlmHttpResult.network_error ∨ resp = LlmHttpResult.http_error ∨
        resp = LlmHttpResult.bad_json →
      llmChat resp = Except.ok fallbackReply) := by
  have hfb : fallbackReply ≠ "" := by decide
  cases resp with
  | network_error =>
    refine ⟨fun e he => ?_, fun s hs => ?_, fun _ => rfl⟩
    · exact absurd he (by simp [llmChat])
    · simp only [llmChat] at hs
      cases hs
      exact hfb
  | http_error =>
    refine ⟨fun e he => ?_, fun s hs => ?_, fun _ => rfl⟩
    · exact absurd he (by simp [llmChat])
    · simp only [llmChat] at hs
      cases hs
      exact hfb
  | bad_json =>
    refine ⟨fun e he => ?_, fun s hs => ?_, fun _ => rfl⟩
    · exact absurd he (by simp [llmChat])
    · simp only [llmChat] at hs
      cases hs
      exact hfb
  | ok body =>
    refine ⟨fun e he => ?_, fun s hs => ?_, fun h => ?_⟩
    · unfold llmChat at he
      dsimp only at he
      rcases hx : extractReply body with e' | s'
      · rw [hx] at he
        cases e' <;> simp_all
      · rw [hx] at he
        simp at he
    · unfold llmChat at hs
      dsimp only at hs
      rcases hx : extractReply body with e' | s'
      · rw [hx] at hs
        cases e' <;> simp_all
      · rw [hx] at hs
        simp only [Except.ok.injEq] at hs
        subst hs
        by_cases hz : s' == ""
        · simp [hz]
          exact hfb
        · simp [hz]
          intro hc
          subst hc
          simp at hz
    · rcases h with h | h | h <;> cases h

/-- Witness for the amended C9: a connection failure yields the fallback
line. -/
theorem llmChat_amended_witness :
    llmChat LlmHttpResult.network_error = Except.ok fallbackReply :=
  (llmChat_amended LlmHttpResult.network_error).2.2 (Or.inl rfl)

/-- Updating one player record rewrites exactly the registry entries
carrying that name. -/
theorem find?_map_update (l : List PlayerRec) (p0 : PlayerRec) (n : String) :
    (l.map (fun q => if q.name == p0.name then p0 else q)).find? (·.name == n) =
      if p0.name == n then (l.find? (·.name == n)).map (fun _ => p0)
      else l.find? (·.name == n) := by
  induction l with
  | nil =>
    cases h : (p0.name == n) <;> simp [h]
  | cons q t ih =>
    simp only [List.map_cons]
    by_cases hqp : q.name = p0.name
    · have hfq : (if q.name == p0.name then p0 else q) = p0 := by simp [hqp]
      rw [hfq]
      by_cases hpn : p0.name = n
      · rw [List.find?_cons_of_pos _ (by simpa using hpn),
          if_pos (by simpa using hpn),
          List.find?_cons_of_pos _ (by simpa using hqp.trans hpn)]
        rfl
      · rw [List.find?_cons_of_neg _ (by simpa using hpn), ih,
          if_neg (by simpa using hpn), if_neg (by simpa using hpn),
          List.find?_cons_of_neg _ (by simpa using fun hh => hpn (hqp ▸ hh))]
    · have hfq : (if q.name == p0.name then p0 else q) = q := by simp [hqp]
      rw [hfq]
      by_cases hqn : q.name = n
      · have hpn : ¬p0.name = n := fun hh => hqp (hqn.trans hh.symm)
        rw [List.find?_cons_of_pos _ (by simpa using hqn),
          if_neg (by simpa using hpn),
          List.find?_cons_of_pos _ (by simpa using hqn)]
      · rw [List.find?_cons_of_neg _ (by simpa using hqn), ih]
        by_cases hpn : p0.name = n
        · rw [if_pos (by simpa using hpn), if_pos (by simpa using hpn),
            List.find?_cons_of_neg _ (by simpa using hqn)]
        · rw [if_neg (by simpa using hpn), if_neg (by simpa using hpn),
            List.find?_cons_of_neg _ (by simpa using hqn)]

/-- `setPlayer` through `getPlayer`. -/
theorem getPlayer_setPlayer (w : World) (p0 : PlayerRec) (n : String) :
    (w.setPlayer p0).getPlayer n =
      if p0.name = n then (w.getPlayer n).map (fun _ => p0)
      else w.getPlayer n := by
  unfold World.setPlayer World.getPlayer
  rw [find?_map_update]
  by_cases h : p0.name = n
  · rw [if_pos (by simpa using h), if_pos h]
  · rw [if_neg (by simpa using h), if_neg h]

/-- A registered record carries the name it is registered under. -/
theorem getPlayer_name {w : World} {n : String} {p : PlayerRec}
    (h : w.getPlayer n = some p) : p.name = n := by
  have := List.find?_some h
  simpa [beq_iff_eq] using this

theorem manaOf_setPlayer (w : World) (p0 : PlayerRec) (n : String) :
    manaOf (w.setPlayer p0) n =
      if p0.name = n then (w.getPlayer n).map (fun _ => p0.mana)
      else manaOf w n := by
  unfold manaOf
  rw [getPlayer_setPlayer]
  by_cases h : p0.name = n
  · rw [if_pos h, if_pos h]
    cases w.getPlayer n <;> rfl
  · rw [if_neg h, if_neg h]

theorem manaOf_setRoom (w : World) (r : Room) (n : String) :
    manaOf (w.setRoom r) n = manaOf w n := rfl

theorem manaOf_setMob (w : World) (i : Nat) (m : Mob) (n : String) :
    manaOf (w.setMob i m) n = manaOf w n := rfl

/-- Writing any entity's hp never changes anyone's mana. -/
theorem manaOf_entSetHp (w : World) (e : EntRef) (v : Int) (n : String) :
    manaOf (w.entSetHp e v) n = manaOf w n := by
  cases e with
  | mob i =>
    unfold World.entSetHp
    cases h : w.getMob i <;> simp [h, manaOf_setMob]
  | player m =>
    unfold World.entSetHp
    dsimp only
    cases h : w.getPlayer m with
    | none => rfl
    | some p =>
      rw [manaOf_setPlayer]
      by_cases hn : p.name = n
      · have hm : m = n := (getPlayer_name h).symm.trans hn
        subst hm
        simp [manaOf, h, hn]
      · simp [hn]

/-- The area sweep only writes hp: mana is untouched for everyone. -/
theorem manaOf_areaHitFold (dmg : Int) (targets : List EntRef)
    (acc : World × List EntRef) (n : String) :
    manaOf ((targets.foldl (areaHitStep dmg) acc).1) n = manaOf acc.1 n := by
  induction targets generalizing acc with
  | nil => rfl
  | cons t ts ih =>
    rw [List.foldl_cons, ih]
    unfold areaHitStep
    exact manaOf_entSetHp _ _ _ _

/-- Every entity the area sweep records as defeated was one of its
targets. -/
theorem areaHitFold_defeated_mem (dmg : Int) (targets : List EntRef)
    (acc : World × List EntRef) :
    ∀ t ∈ (targets.foldl (areaHitStep dmg) acc).2, t ∈ acc.2 ∨ t ∈ targets := by
  induction targets generalizing acc with
  | nil => intro t ht; exact Or.inl ht
  | cons x ts ih =>
    intro t ht
    rw [List.foldl_cons] at ht
    rcases ih _ t ht with h | h
    · unfold areaHitStep at h
      dsimp only at h
      by_cases hc : ((areaHitStep dmg acc x).1.entHp x ≤ 0)
      · rw [if_pos (by simpa [areaHitStep] using hc)] at h
        rcases List.mem_append.mp h with h' | h'
        · exact Or.inl h'
        · simp only [List.mem_singleton] at h'
          subst h'
          exact Or.inr (List.mem_cons_self _ _)
      · rw [if_neg (by simpa [areaHitStep] using hc)] at h
        exact Or.inl h
    · exact Or.inr (List.mem_cons_of_mem _ h)

/-- Death handling for a defeated player other than the caster does not
touch the caster's mana. -/
theorem manaOf_areaHandleDeath (roomVnum : Int) (wA : World) (n cn : String)
    (hne : n ≠ cn) : manaOf (areaHandleDeath roomVnum wA n) cn = manaOf wA cn := by
  unfold areaHandleDeath
  cases hq : wA.getPlayer n with
  | none => rfl
  | some q =>
    have hqn : q.name = n := getPlayer_name hq
    dsimp only
    by_cases hsafe : (wA.setPlayer { q with hp := q.max_hp, mana := q.max_mana }).hasRoom 2201
    · rw [if_pos hsafe]
      have h1 : ∀ (wX : World) (r4 : Room),
          manaOf (wX.setRoom r4) cn = manaOf wX cn := fun _ _ => rfl
      -- innermost: append to safe room list
      have hstep2 : ∀ (wX : World),
          manaOf (match wX.getRoom 2201 with
                  | some r4 => wX.setRoom { r4 with players := r4.players ++ [n] }
                  | none => wX) cn = manaOf wX cn := by
        intro wX
        cases h : wX.getRoom 2201 <;> simp [h, manaOf_setRoom]
      rw [hstep2]
      rw [manaOf_setPlayer]
      simp only [hqn, hne, if_false]
      have hstep1 : ∀ (wX : World),
          manaOf (match wX.getRoom roomVnum with
                  | some r3 =>
                    if r3.players.contains n then
                      wX.setRoom { r3 with players := r3.players.erase n }
                    else wX
                  | none => wX) cn = manaOf wX cn := by
        intro wX
        cases h : wX.getRoom roomVnum with
        | none => simp [h]
        | some r3 =>
          by_cases hc : n ∈ r3.players <;> simp [h, hc, manaOf_setRoom]
      rw [hstep1]
      rw [manaOf_setPlayer]
      simp only [hqn, hne, if_false]
    · rw [if_neg hsafe]
      rw [manaOf_setPlayer]
      simp only [hqn, hne, if_false]

/-- Death handling over a list of non-caster names preserves the
caster's mana. -/
theorem manaOf_areaDeathFold (roomVnum : Int) (names : List String)
    (w0 : World) (cn : String) (hne : ∀ n ∈ names, n ≠ cn) :
    manaOf (names.foldl (areaHandleDeath roomVnum) w0) cn = manaOf w0 cn := by
  induction names generalizing w0 with
  | nil => rfl
  | cons n ns ih =>
    rw [List.foldl_cons,
      ih _ (fun m hm => hne m (List.mem_cons_of_mem _ hm)),
      manaOf_areaHandleDeath _ _ _ _ (hne n (List.mem_cons_self _ _))]

/-- Names extracted from the defeated list are target names, hence never
the caster's. -/
theorem playersToHandle_ne (cn : String) (targets : List EntRef) (dmg : Int)
    (acc : World × List EntRef) (hacc : acc.2 = [])
    (htgt : ∀ m, EntRef.player m ∈ targets → m ≠ cn) :
    ∀ n ∈ ((targets.foldl (areaHitStep dmg) acc).2.filterMap fun t =>
        match t with
        | EntRef.player n => some n
        | EntRef.mob _ => none), n ≠ cn := by
  intro n hn
  rcases List.mem_filterMap.mp hn with ⟨t, ht, hmap⟩
  cases t with
  | mob i => simp at hmap
  | player m =>
    have hm : m = n := by simpa using hmap
    subst hm
    rcases areaHitFold_defeated_mem dmg targets acc _ ht with h | h
    · rw [hacc] at h
      cases h
    · exact htgt m h

/-- The area spell never changes the caster's mana: the caster is
excluded from the target list, and only defeated targets have their mana
refilled. -/
theorem manaOf_areaOffensive (spell : SpellRec) (cn : String) (w : World) :
    manaOf ((areaOffensive spell cn w).1) cn = manaOf w cn := by
  unfold areaOffensive
  cases hc : w.getPlayer cn with
  | none => rfl
  | some c =>
    dsimp only
    cases hr : w.getRoom c.current_room_vnum with
    | none => rfl
    | some room =>
      dsimp only
      split
      · rfl
      · rw [manaOf_areaDeathFold]
        · have hmid : ∀ (wX : World) (mobsToRemove : List Nat),
              manaOf (match wX.getRoom room.vnum with
                      | some r2 =>
                        wX.setRoom { r2 with
                          mobs := mobsToRemove.foldl (fun l i => l.erase i) r2.mobs }
                      | none => wX) cn = manaOf wX cn := by
            intro wX mobsToRemove
            cases h : wX.getRoom room.vnum <;> simp [h, manaOf_setRoom]
          rw [hmid, manaOf_areaHitFold]
          rfl
        · apply playersToHandle_ne cn _ _ _ rfl
          intro m hm hmc
          rcases List.mem_append.mp hm with h | h
          · rcases List.mem_map.mp h with ⟨i, _, heq⟩
            cases heq
          · rcases List.mem_map.mp h with ⟨m', hm', heq⟩
            have hmm : m' = m := by
              injection heq
            subst hmm
            have := (List.mem_filter.mp hm').2
            simp only [bne_iff_ne, ne_eq] at this
            exact this hmc

/-- `spell.cast` (offensive, healing, area or unknown) never changes the
caster's mana. -/
theorem castImpl_preserves_caster_mana (spell : SpellRec) (cn : String)
    (w : World) (t : Option EntRef) :
    manaOf ((castImpl spell cn w t).1) cn = manaOf w cn := by
  unfold castImpl
  split
  · -- offensive
    cases t with
    | none => rfl
    | some tr =>
      dsimp only
      cases hc : w.getPlayer cn with
      | none => rfl
      | some c =>
        dsimp only
        cases tr <;> exact manaOf_entSetHp _ _ _ _
  · split
    · -- healing
      cases hc : w.getPlayer cn with
      | none => rfl
      | some c =>
        dsimp only
        rw [manaOf_setPlayer]
        rw [if_pos (getPlayer_name hc)]
        have : ({ w with rng := (randint spell.base_heal_lo spell.base_heal_hi w.rng).2 } : World).getPlayer cn = w.getPlayer cn := rfl
        rw [this, hc]
        unfold manaOf
        rw [hc]
        rfl
    · split
      · -- area
        exact manaOf_areaOffensive _ _ _
      · rfl

/-- Target resolution only ever fails with the two target errors. -/
theorem resolveSpellTarget_error {w : World} {pname : String} {p : PlayerRec}
    {sp : SpellRec} {tn : Option String} {out : CastOutcome}
    (h : resolveSpellTarget w pname p sp tn = Except.error out) :
    out = CastOutcome.targetMissing ∨ out = CastOutcome.targetNotFound := by
  unfold resolveSpellTarget at h
  split at h
  · cases tn with
    | none =>
      left
      cases h
      rfl
    | some t =>
      dsimp only at h
      cases hr : w.getRoom p.current_room_vnum with
      | none =>
        rw [hr] at h
        right
        cases h
        rfl
      | some room =>
        rw [hr] at h
        dsimp only at h
        split at h
        · cases h
        · split at h
          · cases h
          · right
            cases h
            rfl
  · cases h

/-- Mana bookkeeping of `cast_spell` against any effect runner that
leaves the caster's mana alone: every early failure leaves it unchanged,
success leaves exactly the cost deducted, and an effect failure or an
exception gets the deduction refunded. -/
theorem castSpell_mana (run : SpellRunner) (w : World) (pname sn : String)
    (tn : Option String) (p : PlayerRec) (k : String) (sp : SpellRec)
    (hp : w.getPlayer pname = some p)
    (hsp : p.spellbook.find? (·.1 == sn) = some (k, sp))
    (hpres : ∀ w' t, manaOf ((run w' t).1) pname = manaOf w' pname) :
    manaOf ((castSpell run w pname sn tn).1) pname =
      some (if (castSpell run w pname sn tn).2 = CastOutcome.success
            then p.mana - sp.mana_cost else p.mana) := by
  unfold castSpell
  rw [hp]
  dsimp only
  rw [hsp]
  dsimp only
  by_cases hm : p.mana < sp.mana_cost
  · rw [if_pos hm]
    simp [manaOf, hp]
  · rw [if_neg hm]
    cases htr : resolveSpellTarget w pname p sp tn with
    | error out =>
      dsimp only
      rcases resolveSpellTarget_error htr with h | h <;> subst h <;> simp [manaOf, hp]
    | ok target =>
      dsimp only
      have hw1 : manaOf (w.setPlayer { p with mana := p.mana - sp.mana_cost }) pname =
          some (p.mana - sp.mana_cost) := by
        rw [manaOf_setPlayer]
        rw [if_pos (getPlayer_name hp)]
        rw [hp]
        rfl
      have hrun := hpres (w.setPlayer { p with mana := p.mana - sp.mana_cost }) target
      rw [hw1] at hrun
      cases hres : (run (w.setPlayer { p with mana := p.mana - sp.mana_cost }) target).2 with
      | ok b =>
        cases b with
        | true =>
          simp only [hres]
          simpa using hrun
        | false =>
          simp only [hres]
          unfold manaOf at hrun
          cases hg : (run (w.setPlayer { p with mana := p.mana - sp.mana_cost }) target).1.getPlayer
              pname with
          | none => rw [hg] at hrun; cases hrun
          | some p2 =>
            rw [hg] at hrun
            have hp2 : p2.mana = p.mana - sp.mana_cost := by simpa using hrun
            dsimp only
            rw [manaOf_setPlayer]
            rw [if_pos (getPlayer_name hg)]
            rw [hg]
            simp [hp2]
      | error e =>
        simp only [hres]
        unfold manaOf at hrun
        cases hg : (run (w.setPlayer { p with mana := p.mana - sp.mana_cost }) target).1.getPlayer
            pname with
        | none => rw [hg] at hrun; cases hrun
        | some p2 =>
          rw [hg] at hrun
          have hp2 : p2.mana = p.mana - sp.mana_cost := by simpa using hrun
          dsimp only
          rw [manaOf_setPlayer]
          rw [if_pos (getPlayer_name hg)]
          rw [hg]
          simp [hp2]

/-- C10: with the real spell effects plugged in, casting is atomic with
respect to the caster's mana: a successful cast nets exactly the spell's
mana cost, and every failing path — unknown spell aside, insufficient
mana, missing or unresolvable target, a falsy spell effect, or an
exception inside the effect — leaves the caster's mana unchanged (the
deduction is refunded). -/
theorem cast_spell_mana_atomic (w : World) (pname sn : String)
    (tn : Option String) (p : PlayerRec) (k : String) (sp : SpellRec)
    (hp : w.getPlayer pname = some p)
    (hsp : p.spellbook.find? (·.1 == sn) = some (k, sp)) :
    manaOf ((castSpellFull w pname sn tn).1) pname =
      some (if (castSpellFull w pname sn tn).2 = CastOutcome.success
            then p.mana - sp.mana_cost else p.mana) := by
  unfold castSpellFull
  rw [hp]
  dsimp only
  rw [hsp]
  dsimp only
  exact castSpell_mana (castImpl sp pname) w pname sn tn p k sp hp hsp
    (fun w' t => castImpl_preserves_caster_mana sp pname w' t)

/-- Witness for C10: Alice (75 mana) fireballs the goblin — the cast
succeeds and her mana ends at 75 − 15; fireballing the player Bob instead
makes the spell effect raise (its message reads the `short_desc` a player
lacks) after damaging Bob, and the refund leaves Alice's mana at 75. -/
theorem cast_spell_mana_atomic_witness :
    (manaOf ((castSpellFull wCast "Alice" "fireball" (some "goblin")).1) "Alice" =
      some (if (castSpellFull wCast "Alice" "fireball" (some "goblin")).2 =
              CastOutcome.success
            then 75 - 15 else 75)) ∧
    (castSpellFull wCast "Alice" "fireball" (some "goblin")).2 =
      CastOutcome.success ∧
    (manaOf ((castSpellFull wCastP "Alice" "fireball" (some "bob")).1) "Alice" =
      some (if (castSpellFull wCastP "Alice" "fireball" (some "bob")).2 =
              CastOutcome.success
            then 75 - 15 else 75)) ∧
    (castSpellFull wCastP "Alice" "fireball" (some "bob")).2 =
      CastOutcome.spellError ∧
    ((castSpellFull wCastP "Alice" "fireball" (some "bob")).1.getPlayer "Bob").map
      PlayerRec.hp = some 102 :=
  ⟨cast_spell_mana_atomic wCast "Alice" "fireball" (some "goblin")
      { mkPlayer "Alice" 2201 with spellbook := [("fireball", fireball)] }
      "fireball" fireball (by decide) (by decide),
   by decide,
   cast_spell_mana_atomic wCastP "Alice" "fireball" (some "bob")
      { mkPlayer "Alice" 2201 with spellbook := [("fireball", fireball)] }
      "fireball" fireball (by decide) (by decide),
   by decide,
   by decide⟩

/-- C6 (counterexample): ann and ben are registered as a combat pair but
stand in rooms 100 and 200; both resolve and are alive, so the tick runs
a full (missed) exchange and the pair survives it — co-location is never
checked, so a pair of separated combatants is not removed. -/
theorem combat_pair_survives_separation :
    ((wApart.getPlayer "ann").map PlayerRec.current_room_vnum = some 100 ∧
     (wApart.getPlayer "ben").map PlayerRec.current_room_vnum = some 200) ∧
    (combatRound wApart).combatants = [("ann", "ben")] ∧
    ((combatRound wApart).getPlayer "ann").map PlayerRec.current_room_vnum =
      some 100 ∧
    ((combatRound wApart).getPlayer "ben").map PlayerRec.current_room_vnum =
      some 200 := by
  decide

/-- C6 (amended): a registered pair is removed within one tick once
either side's health is ≤ 0 or either identity no longer resolves;
separation alone does not remove a pair (the two keep exchanging attacks
across rooms). -/
theorem combat_pair_removed_on_death_or_unresolvable (w : World)
    (pr : String × String) (hc : w.combatants = [pr])
    (h : (findEntityGlobally w pr.1 = none ∨ findEntityGlobally w pr.2 = none) ∨
         (∃ e1 e2, findEntityGlobally w pr.1 = some e1 ∧
            findEntityGlobally w pr.2 = some e2 ∧
            (w.entHp e1 ≤ 0 ∨ w.entHp e2 ≤ 0))) :
    (combatRound w).combatants = [] := by
  unfold combatRound
  rw [hc]
  simp only [List.foldl_cons, List.foldl_nil]
  cases hf1 : findEntityGlobally w pr.1 with
  | none =>
    cases hf2 : findEntityGlobally w pr.2 with
    | none =>
      dsimp only
      rw [hc]
      simp [List.erase_cons_head]
    | some e2 =>
      dsimp only
      rw [hc]
      simp [List.erase_cons_head]
  | some e1 =>
    cases hf2 : findEntityGlobally w pr.2 with
    | none =>
      dsimp only
      rw [hc]
      simp [List.erase_cons_head]
    | some e2 =>
      rcases h with (h | h) | ⟨e1', e2', h1', h2', hhp⟩
      · rw [hf1] at h; cases h
      · rw [hf2] at h; cases h
      · rw [hf1] at h1'
        rw [hf2] at h2'
        cases h1'
        cases h2'
        dsimp only
        have hcond : (decide (w.entHp e1 ≤ 0) || decide (w.entHp e2 ≤ 0)) = true := by
          rcases hhp with h | h <;> simp [h]
        rw [if_pos (by simpa using (by
          rcases hhp with h | h
          · exact Or.inl h
          · exact Or.inr h : w.entHp e1 ≤ 0 ∨ w.entHp e2 ≤ 0))]
        rw [hc]
        simp [List.erase_cons_head]

/-- Witness for the amended C6: ben is at 0 hp, so the ann/ben pair is
gone after one tick. -/
theorem combat_pair_removed_on_death_or_unresolvable_witness :
    (combatRound wApartDead).combatants = [] :=
  combat_pair_removed_on_death_or_unresolvable wApartDead ("ann", "ben") rfl
    (Or.inr ⟨EntRef.player "ann", EntRef.player "ben", by decide, by decide,
      Or.inr (by decide)⟩)

/-- C5 (counterexample): the ogre's attack defeats zed (hp would be 0, so
death handling resurrects him at full health in safe room 2201 and drops
the pair), yet the tick still lets the defeated defender retaliate: after
`combat_round` the ogre has lost 7 hp to a player it had just killed. -/
theorem combat_defeated_defender_retaliates :
    (playerAttack wKill (EntRef.mob 1) (EntRef.player "zed")).2 =
      AttackOutcome.hit 50 false ∧
    ((playerAttack wKill (EntRef.mob 1) (EntRef.player "zed")).1.getPlayer "zed").map
      PlayerRec.current_room_vnum = some 2201 ∧
    ((playerAttack wKill (EntRef.mob 1) (EntRef.player "zed")).1.getPlayer "zed").map
      PlayerRec.hp = some 120 ∧
    ((combatRound wKill).getMob 1).map Mob.hp = some 23 ∧
    (combatRound wKill).combatants = [] := by
  decide

/-- C5 (amended): per tick and pair, both identities are re-resolved; a
failed resolution or non-positive health drops the pair with no attack;
otherwise the first-named side attacks, and the defender retaliates
unless the defender's health after the attack step — including death
handling, which resurrects a defeated player to full health, so a killed
player defender still retaliates — is ≤ 0; the pair is dropped whenever a
side's post-step health is ≤ 0 (a killed defender's pair is dropped by
death handling itself). -/
theorem combat_tick_exchange (w : World) (pr : String × String)
    (e1 e2 : EntRef) (hc : w.combatants = [pr])
    (h1 : findEntityGlobally w pr.1 = some e1)
    (h2 : findEntityGlobally w pr.2 = some e2)
    (ha1 : 0 < w.entHp e1) (ha2 : 0 < w.entHp e2) :
    ((playerAttack w e1 e2).1.entHp e2 ≤ 0 →
      combatRound w = { (playerAttack w e1 e2).1 with
        combatants := ((playerAttack w e1 e2).1).combatants.erase pr }) ∧
    (0 < (playerAttack w e1 e2).1.entHp e2 →
      ((playerAttack (playerAttack w e1 e2).1 e2 e1).1.entHp e1 ≤ 0 →
        combatRound w = { (playerAttack (playerAttack w e1 e2).1 e2 e1).1 with
          combatants :=
            ((playerAttack (playerAttack w e1 e2).1 e2 e1).1).combatants.erase pr }) ∧
      (0 < (playerAttack (playerAttack w e1 e2).1 e2 e1).1.entHp e1 →
        combatRound w = (playerAttack (playerAttack w e1 e2).1 e2 e1).1)) := by
  unfold combatRound
  rw [hc]
  simp only [List.foldl_cons, List.foldl_nil]
  rw [h1, h2]
  dsimp only
  have hcond : ¬((decide (w.entHp e1 ≤ 0) || decide (w.entHp e2 ≤ 0)) = true) := by
    simp only [Bool.or_eq_true, decide_eq_true_eq]
    push_neg
    exact ⟨ha1, ha2⟩
  rw [if_neg hcond]
  constructor
  · intro hk
    rw [if_pos hk]
    simp only [List.nil_append, List.foldl_cons, List.foldl_nil]
  · intro hs
    rw [if_neg (not_le.mpr hs)]
    constructor
    · intro hk1
      rw [if_pos hk1]
      simp only [List.nil_append, List.foldl_cons, List.foldl_nil]
    · intro hs1
      rw [if_neg (not_le.mpr hs1)]
      simp only [List.foldl_nil]

/-- Witness for the amended C5: on `wKill` both sides resolve and are
alive, zed survives the step as a resurrected player (health 120 > 0),
the ogre survives the retaliation, so the tick equals exactly the two
chained `player_attack` calls. -/
theorem combat_tick_exchange_witness :
    combatRound wKill =
      (playerAttack (playerAttack wKill (EntRef.mob 1) (EntRef.player "zed")).1
        (EntRef.player "zed") (EntRef.mob 1)).1 :=
  ((combat_tick_exchange wKill ("an ogre", "zed") (EntRef.mob 1)
      (EntRef.player "zed") rfl (by decide) (by decide) (by decide)
      (by decide)).2 (by decide)).2 (by decide)

end Mud
